import Mathlib

/-!
Verification of `sindex` (src/sindex.c), a semantic indexer for C built
on the sparse frontend.  The definitions below are a shallow embedding
of the C source: C strings become `List Char` (or `List Nat` of byte
values where signedness matters), SQLite tables become Lean lists with
the constraints of the schema modelled explicitly, machine integers
become `Nat`/`Int`, and every call to `sindex_error(1, ...)` (which
prints a diagnostic and exits with status 1) becomes `none`.
-/

namespace Sindex

/-! ## Mode bit layout

Modelled from the spec: the constants `U_R_AOF .. U_W_PTR` and `U_SHIFT`
live in `dissect.h`, which belongs to this repository but is not under
`src/`.  Spec §3.1/§6.2: the bits come in three triples AOF, VAL, PTR,
each carrying an R bit and a W bit; `print_mode` (src/sindex.c:861-864)
extracts each triple with `(v / U_R_xxx) & 3`, which forces
`U_W_xxx = 2 * U_R_xxx` and the triples to sit at multipliers 1, 4, 16.
`U_DEF` is `0x100 << U_SHIFT` (src/sindex.c:23) for a `U_SHIFT` that the
spec only requires to avoid the six use bits; we fix `U_SHIFT = 8`.
All theorems below are insensitive to the choice of `U_SHIFT`. -/

def U_R_AOF : Nat := 1
def U_W_AOF : Nat := 2
def U_R_VAL : Nat := 4
def U_W_VAL : Nat := 8
def U_R_PTR : Nat := 16
def U_W_PTR : Nat := 32
def U_SHIFT : Nat := 8
def U_DEF : Nat := 0x100 <<< U_SHIFT

/-- The `modes[]` table of `set_search_modmask` (src/sindex.c:231-235). -/
def modes : List Nat :=
  [U_R_AOF, U_W_AOF, U_R_AOF ||| U_W_AOF,
   U_R_VAL, U_W_VAL, U_R_VAL ||| U_W_VAL,
   U_R_PTR, U_W_PTR, U_R_PTR ||| U_W_PTR]

/-- One iteration of the `for (int i = 0; i < 3; i++)` loop of
`set_search_modmask` (src/sindex.c:237-247): OR the `modes[]` entry
selected by character `v[i]` into the accumulated mask; any character
other than `r w m -` is `sindex_error(1, ...)`, modelled as `none`. -/
def modmaskStep (mask : Nat) (i : Nat) (c : Char) : Option Nat :=
  if c = 'r' then some (mask ||| modes.getD (i * 3) 0)
  else if c = 'w' then some (mask ||| modes.getD (i * 3 + 1) 0)
  else if c = 'm' then some (mask ||| modes.getD (i * 3 + 2) 0)
  else if c = '-' then some mask
  else none

/-- The three unrolled iterations of the loop, starting from mask 0
(`sindex_search_modmask = 0`, src/sindex.c:216). -/
def modmaskLoop (v : List Char) : Option Nat := do
  let m0 ← modmaskStep 0 0 (v.getD 0 ' ')
  let m1 ← modmaskStep m0 1 (v.getD 1 ' ')
  modmaskStep m1 2 (v.getD 2 ' ')

/-- `set_search_modmask` (src/sindex.c:208-248): parse the `-m` search
mode argument into a bit mask.  Length other than 1 or 3 is fatal; a
1-character form is rewritten to a 3-character form; the literal `def`
short-circuits to `U_DEF`; otherwise the three characters are folded
over the `modes[]` table. -/
def set_search_modmask (v : List Char) : Option Nat :=
  if ¬ (v.length = 1 ∨ v.length = 3) then none
  else if v.length = 1 then
    if v.getD 0 ' ' = 'r' then modmaskLoop ['r', 'r', 'r']
    else if v.getD 0 ' ' = 'w' then modmaskLoop ['w', 'w', '-']
    else if v.getD 0 ' ' = 'm' then modmaskLoop ['m', 'm', 'm']
    else if v.getD 0 ' ' = '-' then modmaskLoop ['-', '-', '-']
    else none
  else if v = ['d', 'e', 'f'] then some U_DEF
  else modmaskLoop v

/-- The character table `"-rwm"` indexed by a two-bit value
(src/sindex.c:861). -/
def modeLetter (x : Nat) : Char := (['-', 'r', 'w', 'm'] : List Char).getD (x &&& 3) ' '

/-- `print_mode` (src/sindex.c:851-868) on the integer mode value
`v = atoi(value)`: the `U_DEF` value renders as `def`, any other value
as the three characters `"-rwm"[(v / m) & 3]` for
`m = U_R_AOF, U_R_VAL, U_R_PTR`. -/
def print_mode (v : Nat) : List Char :=
  if v = U_DEF then ['d', 'e', 'f']
  else [modeLetter (v / U_R_AOF), modeLetter (v / U_R_VAL), modeLetter (v / U_R_PTR)]

/-- The mode condition `command_search` appends to the WHERE clause when
`-m` was given (src/sindex.c:1049-1055): `sindex.mode == 0` for a zero
mask, otherwise `(sindex.mode & mask) != 0`, evaluated here directly on
a record's mode value. -/
def searchModeCond (modmask : Nat) (mode : Nat) : Bool :=
  if modmask = 0 then mode == 0 else (mode &&& modmask) != 0

/-! Spec-side description of the `-m` parser, used to compare
`set_search_modmask` with claim C5's wording.  Written from the claim:
a length other than 1 or 3 is fatal; the 1-character forms expand to
`rrr`, `ww-`, `mmm`, `---`; in a 3-character form, character `i` (over
the AOF, VAL, PTR triples in that order) being `r`, `w`, `m`, `-`
contributes that triple's R bit, W bit, both bits, or neither bit, and
any other character is fatal.  The claim makes no exception for the
literal `def`. -/

/-- R bit of triple `i` (AOF, VAL, PTR), claim side. -/
def tripleR (i : Nat) : Nat :=
  match i with
  | 0 => U_R_AOF
  | 1 => U_R_VAL
  | _ => U_R_PTR

/-- W bit of triple `i` (AOF, VAL, PTR), claim side. -/
def tripleW (i : Nat) : Nat :=
  match i with
  | 0 => U_W_AOF
  | 1 => U_W_VAL
  | _ => U_W_PTR

/-- Claim-side contribution of character `i` of a 3-character mode form. -/
def charMaskSpec (i : Nat) (c : Char) : Option Nat :=
  if c = 'r' then some (tripleR i)
  else if c = 'w' then some (tripleW i)
  else if c = 'm' then some (tripleR i ||| tripleW i)
  else if c = '-' then some 0
  else none

/-- Claim-side meaning of a 3-character mode form: the union of the
per-character contributions. -/
def modmaskSpec3 (c0 c1 c2 : Char) : Option Nat := do
  let b0 ← charMaskSpec 0 c0
  let b1 ← charMaskSpec 1 c1
  let b2 ← charMaskSpec 2 c2
  pure (b0 ||| b1 ||| b2)

/-- Claim-side meaning of the whole `-m` argument, exactly as claim C5
states it (with no special case for `def`). -/
def modmaskSpec (v : List Char) : Option Nat :=
  if v.length = 1 then
    if v.getD 0 ' ' = 'r' then modmaskSpec3 'r' 'r' 'r'
    else if v.getD 0 ' ' = 'w' then modmaskSpec3 'w' 'w' '-'
    else if v.getD 0 ' ' = 'm' then modmaskSpec3 'm' 'm' 'm'
    else if v.getD 0 ' ' = '-' then modmaskSpec3 '-' '-' '-'
    else none
  else if v.length = 3 then
    modmaskSpec3 (v.getD 0 ' ') (v.getD 1 ' ') (v.getD 2 ' ')
  else none

/-! ## Persistent store

A row of the `file` table and a row of the `sindex` table
(src/sindex.c:547-565).  SQLite `INTEGER` ids and mtimes are modelled
by `Nat` (AUTOINCREMENT ids) and `Int` (mtimes); the tables are lists
of rows in insertion order. -/

/-- A row of the `file` table: AUTOINCREMENT id, UNIQUE name, mtime. -/
structure FileRec where
  id : Nat
  name : List Char
  mtime : Int
deriving DecidableEq

/-- A row of the persistent `sindex` table (and of the staging table
`tempdb.sindex`, which has the same columns). -/
structure IndexRec where
  file : Nat
  line : Int
  column : Int
  symbol : List Char
  kind : Nat
  context : List Char
  mode : Nat
deriving DecidableEq

/-- The key of the UNIQUE INDEX
`sindex_0 (symbol, kind, mode, file, line, column)` (src/sindex.c:562).
Note that `context` is not part of the key. -/
def IndexRec.key (r : IndexRec) : List Char × Nat × Nat × Nat × Int × Int :=
  (r.symbol, r.kind, r.mode, r.file, r.line, r.column)

/-- Equality on the `sindex_0` key. -/
def sameKey (a b : IndexRec) : Bool :=
  a.symbol == b.symbol && a.kind == b.kind && a.mode == b.mode &&
    a.file == b.file && a.line == b.line && a.column == b.column

/-- `INSERT OR IGNORE INTO sindex`: the new row is dropped when its
`sindex_0` key is already present (src/sindex.c:819). -/
def insertOrIgnore (t : List IndexRec) (r : IndexRec) : List IndexRec :=
  if t.any (fun x => sameKey x r) then t else t ++ [r]

/-- `INSERT OR IGNORE INTO sindex SELECT * FROM tempdb.sindex`
(src/sindex.c:819): fold every staged row into the persistent table. -/
def mergeInto (t : List IndexRec) (staged : List IndexRec) : List IndexRec :=
  staged.foldl insertOrIgnore t

/-- The persistent database: the `file` table, the `sindex` table, and
the AUTOINCREMENT counter of `file.id` (SQLite AUTOINCREMENT never
reuses an id, so deletion leaves the counter alone). -/
structure DB where
  files : List FileRec
  sindex : List IndexRec
  nextId : Nat
deriving DecidableEq

/-- `SELECT id, mtime FROM file WHERE name == @name`
(src/sindex.c:804-806): the row, if any, for a name (UNIQUE makes the
first match the only one). -/
def select_file (db : DB) (name : List Char) : Option FileRec :=
  db.files.find? (fun f => f.name == name)

/-- `DELETE FROM file WHERE name == @name` (src/sindex.c:812-814)
together with the `ON DELETE CASCADE` foreign key of `sindex.file`
(src/sindex.c:554): the name-matching file rows disappear and so does
every index row whose `file` id belonged to one of them. -/
def delete_file (db : DB) (name : List Char) : DB :=
  { db with
    files := db.files.filter (fun f => !(f.name == name)),
    sindex := db.sindex.filter
      (fun r => !(db.files.any (fun f => f.name == name && f.id == r.file))) }

/-- `INSERT INTO file (name, mtime) VALUES (@name, @mtime)`
(src/sindex.c:808-810) followed by `sqlite3_last_insert_rowid`
(src/sindex.c:687): the row gets the next AUTOINCREMENT id, which is
returned alongside the new database. -/
def insert_file (db : DB) (name : List Char) (mtime : Int) : DB × Nat :=
  ({ db with
      files := db.files ++ [⟨db.nextId, name, mtime⟩],
      nextId := db.nextId + 1 },
   db.nextId)

/-- The file-registry update `update_stream` performs for one stream
whose resolved path lies under the project root (src/sindex.c:662-687):
select the file row by relative name; on a hit with equal mtime reuse
its id; on a hit with a different mtime delete the file row (cascading)
and fall through to the insert; on a miss insert a fresh row.  Returns
the updated database and the file id recorded for the stream. -/
def update_stream_file (db : DB) (filename : List Char) (cur_mtime : Int) :
    DB × Nat :=
  match select_file db filename with
  | some f =>
      if cur_mtime = f.mtime then (db, f.id)
      else insert_file (delete_file db filename) filename cur_mtime
  | none => insert_file db filename cur_mtime

/-- An index record as emitted by the reporter before the stream's file
id is attached (the `file` column is filled from
`sindex_streams[pos->stream].id`, src/sindex.c:723). -/
structure Rec0 where
  line : Int
  column : Int
  symbol : List Char
  kind : Nat
  context : List Char
  mode : Nat
deriving DecidableEq

/-- Attach a file id to an emitted record. -/
def tagRec (fid : Nat) (r : Rec0) : IndexRec :=
  ⟨fid, r.line, r.column, r.symbol, r.kind, r.context, r.mode⟩

/-- One `add` run restricted to a single translation unit under the
project root: the registry update for its stream
(src/sindex.c:662-687), then every emitted record staged with the
stream's file id, then the final
`INSERT OR IGNORE INTO sindex SELECT * FROM tempdb.sindex`
(src/sindex.c:818-820).  Returns the updated database and the file id
used for the stream. -/
def add_run (db : DB) (filename : List Char) (cur_mtime : Int)
    (emitted : List Rec0) : DB × Nat :=
  let p := update_stream_file db filename cur_mtime
  ({ p.1 with sindex := mergeInto p.1.sindex (emitted.map (tagRec p.2)) }, p.2)

/-- The index records of file id `fid`. -/
def recordsOf (db : DB) (fid : Nat) : List IndexRec :=
  db.sindex.filter (fun r => r.file == fid)

/-- Well-formedness of the store, guaranteed by the schema: every id is
below the AUTOINCREMENT counter, every index row references an id below
the counter, and file names are UNIQUE. -/
def DBWf (db : DB) : Prop :=
  (∀ f ∈ db.files, f.id < db.nextId) ∧
    (∀ r ∈ db.sindex, r.file < db.nextId) ∧
    db.files.Pairwise (fun a b => a.name ≠ b.name)

/-! ## Reporter sink -/

/-- A sparse identifier (`struct ident`): the `len` field of the C
struct is the length of `name`. -/
structure Ident where
  name : List Char
deriving DecidableEq

/-- The view of a sparse `struct symbol` used by the reporter:
identifier (if any), kind code, and the `sym_is_local` flag. -/
structure CSymbol where
  ident : Option Ident
  kind : Nat
  sym_local : Bool
deriving DecidableEq

/-- A sparse `struct position`: stream number, line, column (`pos`). -/
structure Position where
  stream : Nat
  line : Int
  pos : Int
deriving DecidableEq

/-- The `struct index_record` filled by the reporter callbacks
(src/sindex.c:590-603).  `symbol` holds the bytes the record's symbol
pointer designates, `sym_len` the length that is bound alongside it. -/
structure index_record where
  context : List Char
  ctx_len : Nat
  symbol : List Char
  sym_len : Nat
  kind : Nat
  mode : Nat
  file : Int
  line : Int
  col : Int
deriving DecidableEq

/-- `built_in_ident("?")` (src/sindex.c:746). -/
def identQuestion : Ident := ⟨['?']⟩

/-- `built_in_ident("*")` (src/sindex.c:749). -/
def identStar : Ident := ⟨['*']⟩

/-- `r_symbol` (src/sindex.c:695-728): drop the callback when the
stream's registry slot is the ignored sentinel `-1`, when the symbol is
local and `--include-local-syms` was not given, or when it has no
identifier (a warning, no record); otherwise build the record.
`streams` is the `sindex_streams` array, `ctx` the `dissect_ctx`
identifier (the static `null` ident with empty name when absent). -/
def r_symbol (include_local_syms : Bool) (streams : List Int)
    (ctx : Option Ident) (mode : Nat) (pos : Position) (sym : CSymbol) :
    Option index_record :=
  if streams.getD pos.stream 0 = -1 then none
  else if !include_local_syms && sym.sym_local then none
  else
    match sym.ident with
    | none => none
    | some i =>
        some { context := ((ctx.map Ident.name).getD []),
               ctx_len := ((ctx.map Ident.name).getD []).length,
               symbol := i.name,
               sym_len := i.name.length,
               kind := sym.kind,
               mode := mode,
               file := streams.getD pos.stream 0,
               line := pos.line,
               col := pos.pos }

/-- `r_member` (src/sindex.c:730-767): same stream and locality gates
as `r_symbol`; the symbol text is
`snprintf(memname, 1024, "%.*s.%.*s", si->len, si->name, mi->len, mi->name)`
— the composite `<tag>.<member>` truncated to the 1023 characters the
1024-byte buffer can hold — while `sym_len` is set to
`si->len + mi->len + 1` without regard to the truncation, and the kind
is forced to `'m'`.  `si` falls back to `?` when the aggregate has no
identifier; `mi` is `?` for a member without identifier and `*` when
`mem == NULL` (the entire aggregate is accessed). -/
def r_member (include_local_syms : Bool) (streams : List Int)
    (ctx : Option Ident) (mode : Nat) (pos : Position)
    (sym : CSymbol) (mem : Option CSymbol) : Option index_record :=
  if streams.getD pos.stream 0 = -1 then none
  else if !include_local_syms && sym.sym_local then none
  else
    let si := sym.ident.getD identQuestion
    let mi := match mem with
              | some m => m.ident.getD identQuestion
              | none => identStar
    some { context := ((ctx.map Ident.name).getD []),
           ctx_len := ((ctx.map Ident.name).getD []).length,
           symbol := (si.name ++ ['.'] ++ mi.name).take 1023,
           sym_len := si.name.length + mi.name.length + 1,
           kind := 'm'.toNat,
           mode := mode,
           file := streams.getD pos.stream 0,
           line := pos.line,
           col := pos.pos }

/-- One iteration of the `update_stream` loop (src/sindex.c:629-688)
for a stream backed by a real file (`fd != -1`): `fullname` is the
symlink-resolved absolute path `realpath` produced, `cur_mtime` the
`stat` mtime.  When the first `n_cwd` characters of `fullname` equal
the project root `cwd` and the next character is `/`
(src/sindex.c:647), the relative name is registered through the file
table; otherwise the slot is set to the ignored sentinel `-1` and the
database is untouched.  Returns the database and the slot value. -/
def update_stream_entry (db : DB) (cwd : List Char) (fullname : List Char)
    (cur_mtime : Int) : DB × Int :=
  if fullname.take cwd.length = cwd ∧
      fullname.getD cwd.length (Char.ofNat 0) = '/' then
    let p := update_stream_file db (fullname.drop (cwd.length + 1)) cur_mtime
    (p.1, (p.2 : Int))
  else (db, -1)

/-! ## Search result renderer

`search_query_callback` (src/sindex.c:917-1008) walks the bytes of the
format template.  Characters are modelled as byte values (`Nat`,
0 < b < 256, since 0 terminates the C string); the comparison `c == -1`
of the signed `char` with the `case -1:` label (src/sindex.c:973)
matches the byte `0xFF`.  The 32-byte `buf` only batches `printf`
calls and does not change the emitted byte stream, which is what the
model returns; `sindex_error(1, ...)` is `none`. -/

/-- One result row as handed to the callback: `argv[0..6]` are the
textual column values of the projection
`file.name, line, column, context, symbol, mode, kind`.  `srcline` is
modelled from the spec: it stands for the source line text that
`print_file_line` (src/sindex.c:877-915), whose file I/O is outside
the embedding, prints for `%s` at `(argv[0], argv[1])`. -/
structure SearchRow where
  name : List Nat
  line : List Nat
  column : List Nat
  context : List Nat
  symbol : List Nat
  mode : List Nat
  kind : List Nat
  srcline : List Nat
deriving DecidableEq

/-- `atoi` on the textual bytes of a column value, for the `%m` and
`%k` directives; result for the non-negative decimal strings SQLite
produces for these columns. -/
def atoiN (s : List Nat) : Nat :=
  s.foldl (fun acc b => if 48 ≤ b ∧ b ≤ 57 then acc * 10 + (b - 48) else acc) 0

/-- Byte output of `print_mode` (src/sindex.c:851-868). -/
def print_mode_bytes (v : Nat) : List Nat := (print_mode v).map Char.toNat

/-- The format scanner of `search_query_callback`
(src/sindex.c:924-1005) as a state machine: the `Bool` is the `quote`
flag set by a backslash.  Literal bytes and escape results are copied
to the output; `%` starts a directive; an exhausted template flushes
and emits the final newline (src/sindex.c:1005).  `none` models
`sindex_error(1, ...)`, exit status 1. -/
def render_fmt (row : SearchRow) : Bool → List Nat → Option (List Nat)
  | true, [] => some [10]
  | false, [] => some [10]
  | true, c :: rest =>
      let c' := if c = 116 then 9 else if c = 114 then 13
                else if c = 110 then 10 else c
      (render_fmt row false rest).map (c' :: ·)
  | false, c :: rest =>
      if c = 37 then
        match rest with
        | [] => none
        | d :: rest2 =>
            if d = 102 then (render_fmt row false rest2).map (row.name ++ ·)
            else if d = 108 then (render_fmt row false rest2).map (row.line ++ ·)
            else if d = 99 then (render_fmt row false rest2).map (row.column ++ ·)
            else if d = 67 then (render_fmt row false rest2).map (row.context ++ ·)
            else if d = 110 then (render_fmt row false rest2).map (row.symbol ++ ·)
            else if d = 109 then
              (render_fmt row false rest2).map (print_mode_bytes (atoiN row.mode) ++ ·)
            else if d = 107 then
              (render_fmt row false rest2).map ((atoiN row.kind % 256) :: ·)
            else if d = 115 then (render_fmt row false rest2).map (row.srcline ++ ·)
            else if d = 255 then (render_fmt row false rest2).map (row.name ++ ·)
            else none
      else if c = 92 then render_fmt row true rest
      else (render_fmt row false rest).map (c :: ·)

/-! ## Concrete fixtures for witnesses and counterexamples -/

/-- The character table `"-rwm"` indexed directly (no masking); agrees
with `modeLetter` on indices below 4. -/
def modeTable (p : Nat) : Char := (['-', 'r', 'w', 'm'] : List Char).getD p ' '

/-- `keyIn r t`: the `sindex_0` key of `r` occurs in `t`. -/
def keyIn (r : IndexRec) (t : List IndexRec) : Bool :=
  t.any (fun x => sameKey x r)

/-- A concrete search result row. -/
def row0 : SearchRow := ⟨[97], [49], [50], [], [120], [52], [118], [122]⟩

/-- A one-file, one-record database. -/
def db0 : DB := ⟨[⟨0, ['a'], 5⟩], [⟨0, 1, 1, ['x'], 118, [], 4⟩], 1⟩

/-- A struct tag whose identifier is 1023 characters long. -/
def bigTag : CSymbol := ⟨some ⟨List.replicate 1023 'a'⟩, 's'.toNat, false⟩

/-- A member symbol named `b`. -/
def memB : CSymbol := ⟨some ⟨['b']⟩, 118, false⟩

/-- A sample emitted record. -/
def rec0 : Rec0 := ⟨2, 7, ['y'], 118, [], 1⟩

end Sindex

namespace Sindex

/-! ## Helper lemmas -/

theorem and3_eq_mod (x : Nat) : x &&& 3 = x % 4 := by
  have h := Nat.and_pow_two_sub_one_eq_mod x 2
  norm_num at h
  exact h

theorem modeLetter_eq_table (x : Nat) : modeLetter x = modeTable (x % 4) := by
  rw [modeLetter, modeTable, and3_eq_mod]

/-- Round trip of the three mode characters over all 64 two-bit-triple
values. -/
theorem roundtrip_bounded : ∀ p0 < 4, ∀ p1 < 4, ∀ p2 < 4,
    set_search_modmask [modeTable p0, modeTable p1, modeTable p2] =
        some (p0 + 4 * p1 + 16 * p2) ∧
      print_mode (p0 + 4 * p1 + 16 * p2) =
        [modeTable p0, modeTable p1, modeTable p2] := by decide

theorem modeTable_mem : ∀ p < 4, modeTable p ∈ (['-', 'r', 'w', 'm'] : List Char) := by
  decide

theorem modmaskStep_eq0 (m : Nat) (c : Char) :
    modmaskStep m 0 c = (charMaskSpec 0 c).map (fun b => m ||| b) := by
  simp only [modmaskStep, charMaskSpec]
  split_ifs <;> simp [modes, tripleR, tripleW]

theorem modmaskStep_eq1 (m : Nat) (c : Char) :
    modmaskStep m 1 c = (charMaskSpec 1 c).map (fun b => m ||| b) := by
  simp only [modmaskStep, charMaskSpec]
  split_ifs <;> simp [modes, tripleR, tripleW]

theorem modmaskStep_eq2 (m : Nat) (c : Char) :
    modmaskStep m 2 c = (charMaskSpec 2 c).map (fun b => m ||| b) := by
  simp only [modmaskStep, charMaskSpec]
  split_ifs <;> simp [modes, tripleR, tripleW]

theorem modmaskLoop_eq_spec3 (c0 c1 c2 : Char) :
    modmaskLoop [c0, c1, c2] = modmaskSpec3 c0 c1 c2 := by
  simp only [modmaskLoop, modmaskSpec3, List.getD_cons_zero, List.getD_cons_succ,
    modmaskStep_eq0, modmaskStep_eq1, modmaskStep_eq2]
  rcases h0 : charMaskSpec 0 c0 with _ | b0 <;>
    rcases h1 : charMaskSpec 1 c1 with _ | b1 <;>
      rcases h2 : charMaskSpec 2 c2 with _ | b2 <;>
        simp [h0, h1, h2]

/-! ## Claim C3 -/

/-- C3 counterexample: the argument `def` parses to the mask `U_DEF`,
but the condition `command_search` then emits is the any-bit-set test
`(mode & U_DEF) != 0`, which also accepts the mode value
`U_DEF ||| U_R_AOF`, a value different from `U_DEF`; so the query does
not force an exact match on `DEF`. -/
theorem def_mask_not_exact :
    set_search_modmask ['d', 'e', 'f'] = some U_DEF ∧
      searchModeCond U_DEF (U_DEF ||| U_R_AOF) = true ∧
      U_DEF ||| U_R_AOF ≠ U_DEF := by decide

/-- C3 (amended): the literal `def` parses to exactly the `DEF` bit,
and the resulting query condition accepts precisely the records whose
mode has the `DEF` bit set — an any-bit-set test, which coincides with
exact equality only on records that never combine `DEF` with other mode
bits. -/
theorem def_mask_any_bit :
    set_search_modmask ['d', 'e', 'f'] = some U_DEF ∧
      ∀ mode : Nat, searchModeCond U_DEF mode = true ↔ mode &&& U_DEF ≠ 0 := by
  refine ⟨by decide, fun mode => ?_⟩
  have h : U_DEF ≠ 0 := by decide
  simp [searchModeCond, h]

/-! ## Claim C5 -/

/-- C5 counterexample: the 3-character argument `def` consists of
characters outside `r w m -`, yet `set_search_modmask` accepts it (as
the `DEF` mask) instead of raising the fatal usage error the claim
requires for any such character. -/
theorem modmask_def_parses :
    set_search_modmask ['d', 'e', 'f'] = some U_DEF ∧
      'd' ∉ (['r', 'w', 'm', '-'] : List Char) := by decide

/-- C5 (amended): except on the literal `def` (which parses to the
`DEF` mask), `set_search_modmask` behaves exactly as the claim states:
lengths other than 1 and 3 are fatal, the 1-character forms `r w m -`
expand to `rrr ww- mmm ---`, and a 3-character form folds each
character over the R/W bits of the AOF, VAL, PTR triples, any other
character being fatal (`modmaskSpec` is the claim transcribed). -/
theorem set_search_modmask_matches_claim (v : List Char)
    (hv : v ≠ ['d', 'e', 'f']) :
    set_search_modmask v = modmaskSpec v := by
  unfold set_search_modmask modmaskSpec
  by_cases h1 : v.length = 1
  · rw [if_neg (fun hc => hc (Or.inl h1)), if_pos h1, if_pos h1]
    split_ifs <;> decide
  · by_cases h3 : v.length = 3
    · obtain ⟨c0, c1, c2, rfl⟩ := List.length_eq_three.mp h3
      rw [if_neg (fun hc => hc (Or.inr h3)), if_neg h1, if_neg hv, if_neg h1,
        if_pos h3]
      simpa using modmaskLoop_eq_spec3 c0 c1 c2
    · rw [if_pos (fun hc => hc.elim h1 h3), if_neg h1, if_neg h3]

/-- C5 witness: the amended equivalence at the concrete argument
`r-w`. -/
theorem set_search_modmask_matches_claim_witness :
    set_search_modmask ['r', '-', 'w'] = modmaskSpec ['r', '-', 'w'] :=
  set_search_modmask_matches_claim _ (by decide)

/-! ## Claim C6 -/

/-- C6: for every mode value other than `U_DEF`, `print_mode` yields
three characters drawn from `-rwm` (each selected by the two-bit value
of the AOF, VAL, PTR triple), and parsing that string back with
`set_search_modmask` and pretty-printing the parsed mask reproduces the
same three characters. -/
theorem print_mode_roundtrip (v : Nat) (hv : v ≠ U_DEF) :
    (print_mode v).length = 3 ∧
      (∀ c ∈ print_mode v, c ∈ (['-', 'r', 'w', 'm'] : List Char)) ∧
      ∃ m, set_search_modmask (print_mode v) = some m ∧
        print_mode m = print_mode v := by
  have hpm : print_mode v =
      [modeTable (v % 4), modeTable (v / 4 % 4), modeTable (v / 16 % 4)] := by
    simp only [print_mode, if_neg hv, modeLetter_eq_table, U_R_AOF, U_R_VAL,
      U_R_PTR, Nat.div_one]
  have h0 : v % 4 < 4 := Nat.mod_lt _ (by omega)
  have h1 : v / 4 % 4 < 4 := Nat.mod_lt _ (by omega)
  have h2 : v / 16 % 4 < 4 := Nat.mod_lt _ (by omega)
  obtain ⟨hparse, hprint⟩ := roundtrip_bounded _ h0 _ h1 _ h2
  refine ⟨by rw [hpm]; rfl, ?_, v % 4 + 4 * (v / 4 % 4) + 16 * (v / 16 % 4),
    by rw [hpm]; exact hparse, by rw [hpm]; exact hprint⟩
  intro c hc
  rw [hpm] at hc
  simp only [List.mem_cons, List.not_mem_nil, or_false] at hc
  rcases hc with h | h | h <;> subst h
  · exact modeTable_mem _ h0
  · exact modeTable_mem _ h1
  · exact modeTable_mem _ h2

/-- C6 witness at the concrete mode value 37 (`rrw`). -/
theorem print_mode_roundtrip_witness :
    (print_mode 37).length = 3 ∧
      (∀ c ∈ print_mode 37, c ∈ (['-', 'r', 'w', 'm'] : List Char)) ∧
      ∃ m, set_search_modmask (print_mode 37) = some m ∧
        print_mode m = print_mode 37 :=
  print_mode_roundtrip 37 (by decide)

/-! ## Renderer lemmas -/

/-- A literal byte (neither `%` nor `\`) is copied to the output. -/
theorem render_fmt_literal (row : SearchRow) (c : Nat) (rest : List Nat)
    (h37 : c ≠ 37) (h92 : c ≠ 92) :
    render_fmt row false (c :: rest) =
      (render_fmt row false rest).map (fun out => c :: out) := by
  conv_lhs => rw [render_fmt.eq_def]
  simp [h37, h92]

/-- A run of template bytes containing neither `%` nor `\` passes
through the scanner literally. -/
theorem render_plain_run (row : SearchRow) :
    ∀ pre : List Nat, (∀ b ∈ pre, b ≠ 37 ∧ b ≠ 92) → ∀ rest,
      render_fmt row false (pre ++ rest) =
        (render_fmt row false rest).map (fun out => pre ++ out) := by
  intro pre
  induction pre with
  | nil =>
      intro _ rest
      simp only [List.nil_append]
      cases render_fmt row false rest <;> rfl
  | cons b pre ih =>
      intro hpre rest
      obtain ⟨hb37, hb92⟩ := hpre b (by simp)
      have hrest : ∀ x ∈ pre, x ≠ 37 ∧ x ≠ 92 := fun x hx => hpre x (by simp [hx])
      simp only [List.cons_append]
      rw [render_fmt_literal row b (pre ++ rest) hb37 hb92, ih hrest rest]
      cases render_fmt row false rest <;> rfl

/-! ## Claim C9 -/

/-- C9 counterexample: the byte `0xFF` is not one of the directive
characters `f l c C n m k s`, yet `%` followed by it is not a fatal
error: the comparison of the signed `char` with the `case -1:` label
matches it and the row's file name is printed, as for `%f`. -/
theorem render_ff_directive_not_fatal :
    (255 ∉ ([102, 108, 99, 67, 110, 109, 107, 115] : List Nat)) ∧
      render_fmt row0 false [37, 255] = some ([97] ++ [10]) := by decide

/-- C9 (amended): outside any backslash escape, a `%` followed by a
byte that is neither one of the directives `f l c C n m k s` nor the
byte `0xFF` (which the signed-char `case -1:` label captures and
renders like `%f`) is a fatal error (exit status 1), and a `%` as the
final byte of the template is a fatal error. -/
theorem render_unknown_directive_fatal (row : SearchRow) :
    (∀ pre c suf, (∀ b ∈ pre, b ≠ 37 ∧ b ≠ 92) →
        c ∉ ([102, 108, 99, 67, 110, 109, 107, 115, 255] : List Nat) →
        render_fmt row false (pre ++ 37 :: c :: suf) = none) ∧
      ∀ pre, (∀ b ∈ pre, b ≠ 37 ∧ b ≠ 92) →
        render_fmt row false (pre ++ [37]) = none := by
  constructor
  · intro pre c suf hpre hc
    simp only [List.mem_cons, List.not_mem_nil, or_false, not_or] at hc
    obtain ⟨hf, hl, hcc, hC, hn, hm, hk, hs, hff⟩ := hc
    rw [render_plain_run row pre hpre]
    rw [render_fmt.eq_def]
    simp [hf, hl, hcc, hC, hn, hm, hk, hs, hff]
  · intro pre hpre
    rw [render_plain_run row pre hpre]
    rw [render_fmt.eq_def]
    simp

/-- C9 witness: a fatal unknown directive `%x` after a literal byte,
and a fatal trailing `%` after a literal byte. -/
theorem render_unknown_directive_fatal_witness :
    render_fmt row0 false ([120] ++ 37 :: 120 :: []) = none ∧
      render_fmt row0 false ([120] ++ [37]) = none :=
  ⟨(render_unknown_directive_fatal row0).1 [120] 120 [] (by decide) (by decide),
    (render_unknown_directive_fatal row0).2 [120] (by decide)⟩

/-! ## Claim C10 -/

/-- C10: in the format template a backslash followed by any byte other
than `t`, `r`, `n` emits that byte itself literally (so `\\` prints one
backslash and `\%` prints a percent sign without starting a directive),
and a single backslash at the very end of the template is silently
discarded, while a trailing `%` is a fatal error. -/
theorem render_backslash_literal (row : SearchRow) :
    (∀ c suf, c ∉ ([116, 114, 110] : List Nat) →
        render_fmt row false (92 :: c :: suf) =
          (render_fmt row false suf).map (fun out => c :: out)) ∧
      render_fmt row false [92] = some [10] ∧
      render_fmt row false [37] = none := by
  refine ⟨fun c suf hc => ?_, rfl, rfl⟩
  simp only [List.mem_cons, List.not_mem_nil, or_false, not_or] at hc
  obtain ⟨ht, hr, hn⟩ := hc
  conv_lhs => rw [render_fmt.eq_def]
  simp only [show (92 : Nat) ≠ 37 from by decide, if_neg, reduceIte]
  rw [render_fmt.eq_def]
  simp [ht, hr, hn]

/-- C10 witness: `\%` prints a literal percent sign, a trailing
backslash is dropped, a trailing percent is fatal — at the concrete
row. -/
theorem render_backslash_literal_witness :
    render_fmt row0 false [92, 37] =
        (render_fmt row0 false []).map (fun out => 37 :: out) ∧
      render_fmt row0 false [92] = some [10] ∧
      render_fmt row0 false [37] = none :=
  ⟨(render_backslash_literal row0).1 37 [] (by decide),
    (render_backslash_literal row0).2.1, (render_backslash_literal row0).2.2⟩

/-! ## Claim C4 -/

/-- C4: a stream whose symlink-resolved absolute path does not lie
strictly under the project root (`cwd` followed by a `/` separator)
gets the ignored sentinel `-1` as its registry slot while the database
is left untouched, and every `r_symbol`/`r_member` callback for a
position in such a stream produces no record. -/
theorem outside_root_no_records (db : DB) (cwd fullname : List Char)
    (mtime : Int)
    (h : ¬ (fullname.take cwd.length = cwd ∧
              fullname.getD cwd.length (Char.ofNat 0) = '/')) :
    update_stream_entry db cwd fullname mtime = (db, -1) ∧
      (∀ ils streams ctx mode pos sym,
          streams.getD pos.stream 0 =
              (update_stream_entry db cwd fullname mtime).2 →
          r_symbol ils streams ctx mode pos sym = none) ∧
      (∀ ils streams ctx mode pos sym mem,
          streams.getD pos.stream 0 =
              (update_stream_entry db cwd fullname mtime).2 →
          r_member ils streams ctx mode pos sym mem = none) := by
  have he : update_stream_entry db cwd fullname mtime = (db, -1) := by
    simp only [update_stream_entry, if_neg h]
  refine ⟨he, fun ils streams ctx mode pos sym hs => ?_,
    fun ils streams ctx mode pos sym mem hs => ?_⟩
  · rw [he] at hs
    simp only [r_symbol, if_pos hs]
  · rw [he] at hs
    simp only [r_member, if_pos hs]

/-- C4 witness: a path outside the root at a concrete database, and the
callbacks at the resulting ignored slot. -/
theorem outside_root_no_records_witness :
    update_stream_entry db0 ['/', 'h'] ['/', 't', 'm', 'p'] 3 = (db0, -1) ∧
      r_symbol true [-1] none 4 ⟨0, 1, 2⟩ ⟨some ⟨['x']⟩, 118, false⟩ = none ∧
      r_member true [-1] none 4 ⟨0, 1, 2⟩ ⟨some ⟨['x']⟩, 118, false⟩ none = none := by
  obtain ⟨h1, h2, h3⟩ :=
    outside_root_no_records db0 ['/', 'h'] ['/', 't', 'm', 'p'] 3 (by decide)
  exact ⟨h1,
    h2 true [-1] none 4 ⟨0, 1, 2⟩ ⟨some ⟨['x']⟩, 118, false⟩ (by rw [h1]; rfl),
    h3 true [-1] none 4 ⟨0, 1, 2⟩ ⟨some ⟨['x']⟩, 118, false⟩ none (by rw [h1]; rfl)⟩

/-! ## Claim C8 -/

set_option maxRecDepth 8192 in
/-- C8: at a member use whose aggregate tag is 1023 characters long,
`r_member` produces a record whose kind is forced to `m` and whose
`sym_len` is the full `tag + dot + member` length 1025, but whose
symbol text was truncated by `snprintf` to the 1023 bytes the 1024-byte
`memname` buffer can hold: the stored text is not `"<tag>.<member>"`
(and binding `sym_len` bytes from the shorter buffer over-reads it).
The claim's symbol text only matches the code when
`tag.len + mem.len + 1 ≤ 1023`. -/
theorem r_member_truncates_long_names :
    ∃ rec, r_member true [0] none 4 ⟨0, 1, 2⟩ bigTag (some memB) = some rec ∧
      rec.kind = 'm'.toNat ∧ rec.sym_len = 1025 ∧
      rec.symbol = List.replicate 1023 'a' ∧
      rec.symbol ≠ List.replicate 1023 'a' ++ ['.'] ++ ['b'] := by
  have hlen : (List.replicate 1023 'a').length = 1023 := by
    rw [List.length_replicate]
  have hsym : ((List.replicate 1023 'a' ++ ['.']) ++ ['b']).take 1023 =
      List.replicate 1023 'a' := by
    rw [List.append_assoc]
    exact List.take_left' hlen
  have hr : r_member true [0] none 4 ⟨0, 1, 2⟩ bigTag (some memB) =
      some ⟨[], 0, ((List.replicate 1023 'a' ++ ['.']) ++ ['b']).take 1023,
        (List.replicate 1023 'a').length + (['b'] : List Char).length + 1,
        'm'.toNat, 4, 0, 1, 2⟩ := rfl
  refine ⟨_, hr, rfl, ?_, ?_, ?_⟩
  · show (List.replicate 1023 'a').length + (['b'] : List Char).length + 1 = 1025
    simp
  · exact hsym
  · show ((List.replicate 1023 'a' ++ ['.']) ++ ['b']).take 1023 ≠
        List.replicate 1023 'a' ++ ['.'] ++ ['b']
    rw [hsym]
    intro hcon
    have hlen2 := congrArg List.length hcon
    simp only [List.length_replicate, List.length_append, List.length_cons,
      List.length_nil] at hlen2
    omega

/-! ## Claim C1 -/

/-- C1: for a stream under the project root, the file registry behaves
by cases on the lookup of the relative name: a hit with matching mtime
reuses the stored file id and leaves the database completely unchanged;
a hit with a differing mtime deletes that file record and inserts a new
`(name, current mtime)` record whose generated id is recorded for the
stream; a miss inserts a new `(name, current mtime)` record whose
generated id is recorded. -/
theorem update_stream_file_cases (db : DB) (filename : List Char) (mtime : Int) :
    (∀ f, select_file db filename = some f → f.mtime = mtime →
        update_stream_file db filename mtime = (db, f.id)) ∧
      (∀ f, select_file db filename = some f → f.mtime ≠ mtime →
        (update_stream_file db filename mtime).1.files =
            db.files.filter (fun g => !(g.name == filename)) ++
              [⟨db.nextId, filename, mtime⟩] ∧
          (update_stream_file db filename mtime).2 = db.nextId) ∧
      (select_file db filename = none →
        (update_stream_file db filename mtime).1.files =
            db.files ++ [⟨db.nextId, filename, mtime⟩] ∧
          (update_stream_file db filename mtime).2 = db.nextId) := by
  refine ⟨fun f hf hm => ?_, fun f hf hm => ?_, fun hf => ?_⟩
  · simp only [update_stream_file, hf, if_pos hm.symm]
  · simp only [update_stream_file, hf,
      if_neg (fun hc : mtime = f.mtime => hm hc.symm)]
    exact ⟨rfl, rfl⟩
  · simp only [update_stream_file, hf]
    exact ⟨rfl, rfl⟩

/-- C1 witness: the three registry cases at concrete databases. -/
theorem update_stream_file_cases_witness :
    update_stream_file db0 ['a'] 5 = (db0, 0) ∧
      ((update_stream_file db0 ['a'] 7).1.files =
          db0.files.filter (fun g => !(g.name == ['a'])) ++ [⟨1, ['a'], 7⟩] ∧
        (update_stream_file db0 ['a'] 7).2 = 1) ∧
      ((update_stream_file db0 ['b'] 9).1.files =
          db0.files ++ [⟨1, ['b'], 9⟩] ∧
        (update_stream_file db0 ['b'] 9).2 = 1) :=
  ⟨(update_stream_file_cases db0 ['a'] 5).1 ⟨0, ['a'], 5⟩ (by decide) (by decide),
    (update_stream_file_cases db0 ['a'] 7).2.1 ⟨0, ['a'], 5⟩ (by decide) (by decide),
    (update_stream_file_cases db0 ['b'] 9).2.2 (by decide)⟩

/-! ## Merge lemmas for claims C2 and C7 -/

theorem sameKey_iff (a b : IndexRec) : sameKey a b = true ↔ a.key = b.key := by
  simp [sameKey, IndexRec.key, Prod.ext_iff, and_assoc]

theorem keyIn_iff (r : IndexRec) (t : List IndexRec) :
    keyIn r t = true ↔ ∃ x ∈ t, x.key = r.key := by
  simp [keyIn, List.any_eq_true, sameKey_iff]

theorem insertOrIgnore_of_keyIn (t : List IndexRec) (r : IndexRec)
    (h : keyIn r t = true) : insertOrIgnore t r = t := by
  rw [insertOrIgnore]
  exact if_pos h

theorem keyIn_insertOrIgnore (q : IndexRec) (t : List IndexRec) (r : IndexRec)
    (h : keyIn q t = true) : keyIn q (insertOrIgnore t r) = true := by
  rw [insertOrIgnore]
  split_ifs with hc
  · exact h
  · rw [keyIn_iff] at h ⊢
    obtain ⟨x, hx, hk⟩ := h
    exact ⟨x, by simp [hx], hk⟩

theorem keyIn_mergeInto_of_left (r : IndexRec) (st : List IndexRec) :
    ∀ s, keyIn r s = true → keyIn r (mergeInto s st) = true := by
  induction st with
  | nil => exact fun s h => h
  | cons x st ih => exact fun s h => ih _ (keyIn_insertOrIgnore r s x h)

theorem keyIn_mergeInto_of_staged (r : IndexRec) (st : List IndexRec) :
    ∀ s, keyIn r st = true → keyIn r (mergeInto s st) = true := by
  induction st with
  | nil => intro s h; simp [keyIn] at h
  | cons x st ih =>
      intro s h
      rw [keyIn, List.any_cons, Bool.or_eq_true] at h
      rcases h with hx | hst
      · show keyIn r (mergeInto (insertOrIgnore s x) st) = true
        apply keyIn_mergeInto_of_left
        have hk := (sameKey_iff x r).mp hx
        rw [insertOrIgnore]
        split_ifs with hc
        · rw [keyIn_iff]
          rw [show (s.any fun y => sameKey y x) = keyIn x s from rfl, keyIn_iff] at hc
          obtain ⟨z, hz, hzk⟩ := hc
          exact ⟨z, hz, hzk.trans hk⟩
        · rw [keyIn_iff]
          exact ⟨x, by simp, hk⟩
      · exact ih _ hst

theorem mergeInto_of_all_keyIn (st : List IndexRec) :
    ∀ t, (∀ r ∈ st, keyIn r t = true) → mergeInto t st = t := by
  induction st with
  | nil => intro t _; rfl
  | cons x st ih =>
      intro t h
      show mergeInto (insertOrIgnore t x) st = t
      rw [insertOrIgnore_of_keyIn t x (h x (by simp))]
      exact ih t (fun r hr => h r (by simp [hr]))

theorem mergeInto_idem (s st : List IndexRec) :
    mergeInto (mergeInto s st) st = mergeInto s st :=
  mergeInto_of_all_keyIn st _ (fun r hr =>
    keyIn_mergeInto_of_staged r st s ((keyIn_iff r st).mpr ⟨r, hr, rfl⟩))

theorem find?_filter_ne (l : List FileRec) (name : List Char) :
    (l.filter (fun f => !(f.name == name))).find? (fun f => f.name == name) =
      none := by
  rw [List.find?_eq_none]
  intro x hx
  have hq := (List.mem_filter.mp hx).2
  simp only [Bool.not_eq_eq_eq_not, Bool.not_true, beq_eq_false_iff_ne] at hq
  simp [hq]

/-- After the registry update, looking the name up again finds exactly
the recorded id with the current mtime. -/
theorem select_after_update (db : DB) (filename : List Char) (mtime : Int) :
    select_file (update_stream_file db filename mtime).1 filename =
      some ⟨(update_stream_file db filename mtime).2, filename, mtime⟩ := by
  rcases hsel : select_file db filename with _ | f
  · simp only [update_stream_file, hsel]
    rw [select_file] at hsel
    rw [select_file, insert_file]
    simp only [List.find?_append, hsel, Option.none_or]
    simp
  · by_cases hm : mtime = f.mtime
    · simp only [update_stream_file, hsel, if_pos hm]
      have hn : f.name = filename := by
        have hp := List.find?_some hsel
        simpa using hp
      cases f
      simp only at hn hm
      simp [hn, hm]
    · simp only [update_stream_file, hsel, if_neg hm]
      rw [select_file, insert_file]
      simp only [delete_file, List.find?_append, find?_filter_ne, Option.none_or]
      simp

/-! ## Claim C2 -/

/-- C2: an `INSERT OR IGNORE` of a record whose `sindex_0` key
`(symbol, kind, mode, file, line, column)` already occurs in the
staging table or in the persistent table leaves the merged result
unchanged; consequently a second `add` run over an unchanged file (same
mtime, hence the same emitted records with the same file id) leaves the
database — in particular the set of index records — unchanged. -/
theorem add_insert_dedup_idempotent :
    (∀ (s st : List IndexRec) (r : IndexRec),
        ((∃ x ∈ st, x.key = r.key) ∨ ∃ x ∈ s, x.key = r.key) →
        mergeInto s (st ++ [r]) = mergeInto s st) ∧
      ∀ (db : DB) (filename : List Char) (mtime : Int) (emitted : List Rec0),
        add_run (add_run db filename mtime emitted).1 filename mtime emitted =
          add_run db filename mtime emitted := by
  constructor
  · intro s st r h
    rw [mergeInto, List.foldl_append]
    show insertOrIgnore (mergeInto s st) r = mergeInto s st
    apply insertOrIgnore_of_keyIn
    rcases h with h | h
    · exact keyIn_mergeInto_of_staged r st s ((keyIn_iff r st).mpr h)
    · exact keyIn_mergeInto_of_left r st s ((keyIn_iff r s).mpr h)
  · intro db filename mtime emitted
    have hsel2 : select_file (add_run db filename mtime emitted).1 filename =
        some ⟨(update_stream_file db filename mtime).2, filename, mtime⟩ := by
      rw [select_file]
      rw [show (add_run db filename mtime emitted).1.files =
          (update_stream_file db filename mtime).1.files from rfl]
      exact select_after_update db filename mtime
    have hstep : update_stream_file (add_run db filename mtime emitted).1
          filename mtime =
        ((add_run db filename mtime emitted).1,
          (update_stream_file db filename mtime).2) := by
      simp only [update_stream_file, hsel2]
      simp
    have hsin : (add_run db filename mtime emitted).1.sindex =
        mergeInto (update_stream_file db filename mtime).1.sindex
          (emitted.map (tagRec (update_stream_file db filename mtime).2)) := rfl
    rw [show add_run (add_run db filename mtime emitted).1 filename mtime emitted =
        ({ (update_stream_file (add_run db filename mtime emitted).1 filename
              mtime).1 with
            sindex := mergeInto
              (update_stream_file (add_run db filename mtime emitted).1 filename
                mtime).1.sindex
              (emitted.map (tagRec
                (update_stream_file (add_run db filename mtime emitted).1 filename
                  mtime).2)) },
          (update_stream_file (add_run db filename mtime emitted).1 filename
            mtime).2) from rfl]
    rw [hstep]
    rw [show ((add_run db filename mtime emitted).1,
          (update_stream_file db filename mtime).2).1.sindex =
        (add_run db filename mtime emitted).1.sindex from rfl]
    rw [hsin, mergeInto_idem, ← hsin]
    rfl

/-- C2 witness: a duplicate-key insert (same key, different context) at
a concrete staging table, and a concrete double run. -/
theorem add_insert_dedup_idempotent_witness :
    mergeInto []
        ([⟨0, 1, 1, ['x'], 118, [], 4⟩] ++ [⟨0, 1, 1, ['x'], 118, ['f'], 4⟩]) =
        mergeInto [] [⟨0, 1, 1, ['x'], 118, [], 4⟩] ∧
      add_run (add_run db0 ['a'] 5 [rec0]).1 ['a'] 5 [rec0] =
        add_run db0 ['a'] 5 [rec0] :=
  ⟨add_insert_dedup_idempotent.1 [] [⟨0, 1, 1, ['x'], 118, [], 4⟩]
      ⟨0, 1, 1, ['x'], 118, ['f'], 4⟩
      (Or.inl ⟨⟨0, 1, 1, ['x'], 118, [], 4⟩, by decide, by decide⟩),
    add_insert_dedup_idempotent.2 db0 ['a'] 5 [rec0]⟩

/-! ## Cascade and frame lemmas for claim C7 -/

theorem sameKey_file (x r : IndexRec) (h : sameKey x r = true) :
    x.file = r.file := by
  simp only [sameKey, Bool.and_eq_true, beq_iff_eq] at h
  exact h.1.1.2

theorem mergeInto_append_disjoint (t : List IndexRec) :
    ∀ rs, (∀ x ∈ t, ∀ r ∈ rs, sameKey x r = false) →
      ∀ u, mergeInto (t ++ u) rs = t ++ mergeInto u rs := by
  intro rs
  induction rs with
  | nil => intro _ u; rfl
  | cons r rs ih =>
      intro hd u
      show mergeInto (insertOrIgnore (t ++ u) r) rs =
        t ++ mergeInto (insertOrIgnore u r) rs
      have ht : t.any (fun x => sameKey x r) = false := by
        rw [List.any_eq_false]
        intro x hx
        simp [hd x hx r (by simp)]
      rw [insertOrIgnore, insertOrIgnore, List.any_append, ht, Bool.false_or]
      by_cases hc : u.any (fun x => sameKey x r) = true
      · rw [if_pos hc, if_pos hc]
        exact ih (fun x hx r2 hr2 => hd x hx r2 (by simp [hr2])) u
      · rw [if_neg hc, if_neg hc, List.append_assoc]
        exact ih (fun x hx r2 hr2 => hd x hx r2 (by simp [hr2])) (u ++ [r])

theorem mem_mergeInto (x : IndexRec) (rs : List IndexRec) :
    ∀ u, x ∈ mergeInto u rs → x ∈ u ∨ x ∈ rs := by
  induction rs with
  | nil => intro u h; exact Or.inl h
  | cons r rs ih =>
      intro u h
      rcases ih (insertOrIgnore u r) h with h2 | h2
      · rw [insertOrIgnore] at h2
        split_ifs at h2 with hc
        · exact Or.inl h2
        · rcases List.mem_append.mp h2 with h3 | h3
          · exact Or.inl h3
          · right
            simp only [List.mem_singleton] at h3
            simp [h3]
      · right
        simp [h2]

theorem mem_map_tagRec_file (fid : Nat) (emitted : List Rec0) (r : IndexRec)
    (h : r ∈ emitted.map (tagRec fid)) : r.file = fid := by
  obtain ⟨r0, _, rfl⟩ := List.mem_map.mp h
  rfl

theorem find?_filter_subsume {α : Type} (p q : α → Bool) (l : List α)
    (h : ∀ x, p x = true → q x = true) : (l.filter q).find? p = l.find? p := by
  induction l with
  | nil => rfl
  | cons a l ih =>
      by_cases hq : q a = true
      · rw [List.filter_cons_of_pos hq]
        by_cases hp : p a = true
        · rw [List.find?_cons_of_pos _ hp, List.find?_cons_of_pos _ hp]
        · rw [List.find?_cons_of_neg _ hp, List.find?_cons_of_neg _ hp, ih]
      · rw [List.filter_cons_of_neg hq]
        have hp : ¬ p a = true := fun hpa => hq (h a hpa)
        rw [List.find?_cons_of_neg _ hp, ih]

theorem unique_name_eq (db : DB) (hwf : DBWf db) (f g : FileRec)
    (hf : f ∈ db.files) (hg : g ∈ db.files) (hn : f.name = g.name) : f = g := by
  by_contra hne
  have hsym : Symmetric (fun a b : FileRec => a.name ≠ b.name) := by
    intro x y hxy e
    exact hxy e.symm
  exact List.Pairwise.forall hsym hwf.2.2 hf hg hne hn

/-! ## Claim C7 -/

/-- C7: re-running `add` over a single file whose mtime changed replaces
exactly that file's data: the stream records the fresh id, the file
record is replaced by one carrying the current mtime under the fresh
id, file records of every other name are unchanged, the index records
of the old file id are all gone (deleted by the cascade), the fresh id
carries exactly the merged emitted records, and the index records of
every other file id are unchanged. -/
theorem mtime_change_replaces_exactly (db : DB) (filename : List Char)
    (mtime : Int) (emitted : List Rec0) (f : FileRec) (hwf : DBWf db)
    (hf : select_file db filename = some f) (hm : f.mtime ≠ mtime) :
    (add_run db filename mtime emitted).2 = db.nextId ∧
      select_file (add_run db filename mtime emitted).1 filename =
        some ⟨db.nextId, filename, mtime⟩ ∧
      (∀ n2, n2 ≠ filename →
        select_file (add_run db filename mtime emitted).1 n2 =
          select_file db n2) ∧
      recordsOf (add_run db filename mtime emitted).1 f.id = [] ∧
      recordsOf (add_run db filename mtime emitted).1 db.nextId =
        mergeInto [] (emitted.map (tagRec db.nextId)) ∧
      (∀ g, g ≠ f.id → g ≠ db.nextId →
        recordsOf (add_run db filename mtime emitted).1 g = recordsOf db g) := by
  have hmem : f ∈ db.files := List.mem_of_find?_eq_some hf
  have hfname : f.name = filename := by simpa using List.find?_some hf
  have hid : f.id < db.nextId := hwf.1 f hmem
  have hstep : update_stream_file db filename mtime =
      insert_file (delete_file db filename) filename mtime := by
    simp only [update_stream_file, hf,
      if_neg (fun hc : mtime = f.mtime => hm hc.symm)]
  have h2 : (add_run db filename mtime emitted).2 = db.nextId := by
    show (update_stream_file db filename mtime).2 = db.nextId
    rw [hstep]
    rfl
  have hfiles : (add_run db filename mtime emitted).1.files =
      db.files.filter (fun g => !(g.name == filename)) ++
        [⟨db.nextId, filename, mtime⟩] := by
    show (update_stream_file db filename mtime).1.files = _
    rw [hstep]
    rfl
  have hsindex : (add_run db filename mtime emitted).1.sindex =
      mergeInto (delete_file db filename).sindex
        (emitted.map (tagRec db.nextId)) := by
    show mergeInto (update_stream_file db filename mtime).1.sindex
        (emitted.map (tagRec (update_stream_file db filename mtime).2)) = _
    rw [hstep]
    rfl
  have hcascmem : ∀ x ∈ (delete_file db filename).sindex,
      x.file < db.nextId := by
    intro x hx
    exact hwf.2.1 x (List.mem_filter.mp hx).1
  have hdis : ∀ x ∈ (delete_file db filename).sindex,
      ∀ r ∈ emitted.map (tagRec db.nextId), sameKey x r = false := by
    intro x hx r hr
    cases hsk : sameKey x r with
    | false => rfl
    | true =>
        have hk1 := sameKey_file x r hsk
        have hk2 := mem_map_tagRec_file _ _ r hr
        have hk3 := hcascmem x hx
        omega
  have hsp : mergeInto (delete_file db filename).sindex
        (emitted.map (tagRec db.nextId)) =
      (delete_file db filename).sindex ++
        mergeInto [] (emitted.map (tagRec db.nextId)) := by
    have h4 := mergeInto_append_disjoint (delete_file db filename).sindex
      (emitted.map (tagRec db.nextId)) hdis []
    simpa using h4
  have hnewfile : ∀ x ∈ mergeInto [] (emitted.map (tagRec db.nextId)),
      x.file = db.nextId := by
    intro x hx
    rcases mem_mergeInto x _ [] hx with h3 | h3
    · cases h3
    · exact mem_map_tagRec_file _ _ x h3
  refine ⟨h2, ?_, ?_, ?_, ?_, ?_⟩
  · have hsa := select_after_update db filename mtime
    have h2u : (update_stream_file db filename mtime).2 = db.nextId := h2
    rw [h2u] at hsa
    exact hsa
  · intro n2 hn2
    rw [select_file, hfiles, List.find?_append]
    have hnew : (List.find? (fun g => g.name == n2)
        [(⟨db.nextId, filename, mtime⟩ : FileRec)]) = none := by
      rw [List.find?_cons_of_neg]
      · rfl
      · simp only [beq_iff_eq]
        exact fun e => hn2 e.symm
    rw [hnew, Option.or_none, find?_filter_subsume]
    · rfl
    · intro x hx
      simp only [beq_iff_eq] at hx
      simp [hx, hn2]
  · rw [recordsOf, hsindex, hsp, List.filter_append]
    have hcasc : (delete_file db filename).sindex.filter
        (fun r => r.file == f.id) = [] := by
      rw [List.filter_eq_nil_iff]
      intro r hr
      have hq := (List.mem_filter.mp hr).2
      simp only [delete_file] at hq
      simp only [Bool.not_eq_true', List.any_eq_false] at hq
      have h5 := hq f hmem
      simp only [Bool.and_eq_true, beq_iff_eq, not_and] at h5
      intro hrf
      simp only [beq_iff_eq] at hrf
      exact h5 hfname hrf.symm
    have hm0 : (mergeInto [] (emitted.map (tagRec db.nextId))).filter
        (fun r => r.file == f.id) = [] := by
      rw [List.filter_eq_nil_iff]
      intro r hr
      have h6 := hnewfile r hr
      simp only [h6, beq_iff_eq]
      omega
    rw [hcasc, hm0]
    rfl
  · rw [recordsOf, hsindex, hsp, List.filter_append]
    have hcasc : (delete_file db filename).sindex.filter
        (fun r => r.file == db.nextId) = [] := by
      rw [List.filter_eq_nil_iff]
      intro r hr
      have h5 := hcascmem r hr
      simp only [beq_iff_eq]
      omega
    have hm0 : (mergeInto [] (emitted.map (tagRec db.nextId))).filter
        (fun r => r.file == db.nextId) =
        mergeInto [] (emitted.map (tagRec db.nextId)) := by
      rw [List.filter_eq_self]
      intro r hr
      simp [hnewfile r hr]
    rw [hcasc, hm0, List.nil_append]
  · intro g hg1 hg2
    rw [recordsOf, hsindex, hsp, List.filter_append, recordsOf]
    have hm0 : (mergeInto [] (emitted.map (tagRec db.nextId))).filter
        (fun r => r.file == g) = [] := by
      rw [List.filter_eq_nil_iff]
      intro r hr
      simp only [hnewfile r hr, beq_iff_eq]
      exact fun e => hg2 e.symm
    rw [hm0, List.append_nil]
    simp only [delete_file]
    rw [List.filter_filter]
    apply List.filter_congr
    intro r hrmem
    by_cases hpg : (r.file == g) = true
    · simp only [hpg, Bool.true_and]
      simp only [Bool.not_eq_true', List.any_eq_false]
      simp only [beq_iff_eq] at hpg
      intro h5 hmem5
      simp only [Bool.and_eq_true, beq_iff_eq, not_and]
      intro hname hid5
      have h6 : h5 = f :=
        unique_name_eq db hwf h5 f hmem5 hmem (by rw [hname, hfname])
      subst h6
      exact hg1 (by rw [← hpg, ← hid5])
    · simp only [Bool.not_eq_true] at hpg
      simp [hpg]

/-- C7 witness: the frame property at a concrete one-file database
whose file mtime changed from 5 to 7. -/
theorem mtime_change_replaces_exactly_witness :
    (add_run db0 ['a'] 7 [rec0]).2 = db0.nextId ∧
      select_file (add_run db0 ['a'] 7 [rec0]).1 ['a'] =
        some ⟨db0.nextId, ['a'], 7⟩ ∧
      (∀ n2, n2 ≠ ['a'] →
        select_file (add_run db0 ['a'] 7 [rec0]).1 n2 = select_file db0 n2) ∧
      recordsOf (add_run db0 ['a'] 7 [rec0]).1 (⟨0, ['a'], 5⟩ : FileRec).id =
        [] ∧
      recordsOf (add_run db0 ['a'] 7 [rec0]).1 db0.nextId =
        mergeInto [] ([rec0].map (tagRec db0.nextId)) ∧
      (∀ g, g ≠ (⟨0, ['a'], 5⟩ : FileRec).id → g ≠ db0.nextId →
        recordsOf (add_run db0 ['a'] 7 [rec0]).1 g = recordsOf db0 g) :=
  mtime_change_replaces_exactly db0 ['a'] 7 [rec0] ⟨0, ['a'], 5⟩
    (by refine ⟨?_, ?_, ?_⟩ <;> decide) (by decide) (by decide)

end Sindex
